import Mathlib

/-!
# Dialogue search utilities

A shallow embedding of `FDialogueSearchUtilities`
(`Source/DlgSystemEditor/Private/DialogueSearch/DialogueSearchUtilities.h`).

* `TArray<T>` is a `List T`; a range-based `for` with an early `return true`
  is a structural recursion over the list.
* `FName` is a type parameter with decidable equality: the header only ever
  compares names with `==`.
* `TSharedPtr<FDialogueSearchFoundResult>` is a value of the result structure;
  a function that fills a result passed by reference takes the result and
  returns the updated one.
-/

namespace DlgSystem

/-! ## Data model -/

/-- Modelled from the spec: the enum `EDlgConditionType` is declared in
`DlgCondition.h`, which is not among the sources. The values are the ones the
spec lists, plus `EventCall`, which the header names in a comment. -/
inductive EDlgConditionType where
  | EventCall
  | BoolCall
  | IntCall
  | FloatCall
  | NameCall
  | ClassBoolVariable
  | ClassIntVariable
  | FloatVariable
  | ClassNameVariable
  deriving DecidableEq, Repr

/-- Modelled from the spec: the enum `EDlgEventType` is declared in
`DlgEvent.h`, which is not among the sources. The values are the ones the
spec lists, plus `Event`, which the header names in a comment. -/
inductive EDlgEventType where
  | Event
  | ModifyBool
  | ModifyInt
  | ModifyFloat
  | ModifyName
  | ModifyClassBoolVariable
  | ModifyClassIntVariable
  | ModifyClassFloatVariable
  | ModifyClassNameVariable
  deriving DecidableEq, Repr

/-- Modelled from the spec: the enum `EDlgTextArgumentType` is declared in
`DlgTextArgument.h`, which is not among the sources. The values are the ones
the spec lists. -/
inductive EDlgTextArgumentType where
  | DialogueInt
  | DialogueFloat
  | ClassInt
  | ClassFloat
  | ClassText
  deriving DecidableEq, Repr

/-- Modelled from the spec: the struct `FDlgCondition` of `DlgCondition.h`,
with the three fields `IsConditionInArray` reads. -/
structure FDlgCondition (FName : Type) where
  ConditionType : EDlgConditionType
  CallbackName : FName
  OtherVariableName : FName
  deriving DecidableEq, Repr

/-- Modelled from the spec: the struct `FDlgEvent` of `DlgEvent.h`, with the
two fields `IsEventInArray` reads. -/
structure FDlgEvent (FName : Type) where
  EventType : EDlgEventType
  EventName : FName
  deriving DecidableEq, Repr

/-- Modelled from the spec: the struct `FDlgTextArgument` of
`DlgTextArgument.h`, with the two fields `IsTextArgumentInArray` reads (`Type_` is the field
`Type`, a reserved word here). -/
structure FDlgTextArgument (FName : Type) where
  Type_ : EDlgTextArgumentType
  VariableName : FName
  deriving DecidableEq, Repr

variable {FName : Type} [DecidableEq FName]

/-! ## The three array predicates (header lines 188-230) -/

/-- Does `Conditions` contain the `ConditionName` (of type `ConditionType`)?
The loop returns `true` at the first condition of the wanted type whose
`CallbackName` or `OtherVariableName` is the name, `false` after the last. -/
def IsConditionInArray (ConditionName : FName) (ConditionType : EDlgConditionType) :
    List (FDlgCondition FName) → Bool
  | [] => false
  | Condition :: Rest =>
    if Condition.ConditionType = ConditionType ∧
        (Condition.CallbackName = ConditionName ∨ Condition.OtherVariableName = ConditionName) then
      true
    else
      IsConditionInArray ConditionName ConditionType Rest

/-- Does `Events` contain the `EventName` (of type `EventType`)? -/
def IsEventInArray (EventName : FName) (EventType : EDlgEventType) :
    List (FDlgEvent FName) → Bool
  | [] => false
  | Event :: Rest =>
    if Event.EventType = EventType ∧ Event.EventName = EventName then
      true
    else
      IsEventInArray EventName EventType Rest

/-- Does `TextArguments` contain the `TextArgumentName` (of type
`TextArgumentType`)? -/
def IsTextArgumentInArray (TextArgumentName : FName) (TextArgumentType : EDlgTextArgumentType) :
    List (FDlgTextArgument FName) → Bool
  | [] => false
  | TextArgument :: Rest =>
    if TextArgument.Type_ = TextArgumentType ∧ TextArgument.VariableName = TextArgumentName then
      true
    else
      IsTextArgumentInArray TextArgumentName TextArgumentType Rest

/-! ## The dialogue graph and the search result -/

/-- Modelled from the spec: the class `UDialogueGraphNode_Edge` is only
forward-declared in the header. The spec's Edge: an identifier and an ordered
list of conditions. -/
structure UDialogueGraphNode_Edge (FName : Type) where
  Id : Nat
  Conditions : List (FDlgCondition FName)
  deriving DecidableEq, Repr

/-- Modelled from the spec: the class `UDialogueGraphNode` is only
forward-declared in the header. The spec's Node: an identifier, ordered lists
of conditions, events and text arguments; every edge belongs to exactly one
source node, so a node carries the edges it owns. -/
structure UDialogueGraphNode (FName : Type) where
  Id : Nat
  Conditions : List (FDlgCondition FName)
  Events : List (FDlgEvent FName)
  TextArguments : List (FDlgTextArgument FName)
  Edges : List (UDialogueGraphNode_Edge FName)
  deriving DecidableEq, Repr

/-- Modelled from the spec: the class `UDlgDialogue` is only forward-declared
in the header. The spec's Graph Model: an ordered sequence of nodes, each
with its edges. -/
structure UDlgDialogue (FName : Type) where
  Nodes : List (UDialogueGraphNode FName)
  deriving DecidableEq, Repr

/-- The found result of the search functions (header lines 20-35): the nodes
and the edges that satisfy the search. A weak pointer to a graph node is the
node it points to. -/
structure FDialogueSearchFoundResult (FName : Type) where
  GraphNodes : List (UDialogueGraphNode FName)
  EdgeNodes : List (UDialogueGraphNode_Edge FName)
  deriving DecidableEq, Repr

/-- The empty result of `FDialogueSearchFoundResult::Make()`. -/
def FDialogueSearchFoundResult.Make : FDialogueSearchFoundResult FName :=
  { GraphNodes := [], EdgeNodes := [] }

/-! ## The two private scans

Both are declared in the header (lines 232-245) and defined in a file that is
not among the sources. -/

/-- Modelled from the spec: the loop over the edges a node owns, inside
`GetGraphNodesForVariablesOfNameAndType`: "scan each Edge owned by that
Node's transitions for Condition matches and add matching Edges". -/
def ScanEdgesForCondition (VariableName : FName) (ConditionType : EDlgConditionType) :
    List (UDialogueGraphNode_Edge FName) → FDialogueSearchFoundResult FName →
      FDialogueSearchFoundResult FName
  | [], FoundResult => FoundResult
  | Edge :: Rest, FoundResult =>
    ScanEdgesForCondition VariableName ConditionType Rest
      (if IsConditionInArray VariableName ConditionType Edge.Conditions then
        { FoundResult with EdgeNodes := FoundResult.EdgeNodes ++ [Edge] }
      else FoundResult)

/-- Modelled from the spec: does one of the edges a node owns hold a matching
condition? The spec puts the edges of a node in the node's match scope: "the
Edge appears in the result's edge set, and its owning Node also appears (edges
are always associated to their source node's match scope)". -/
def IsConditionInEdges (VariableName : FName) (ConditionType : EDlgConditionType) :
    List (UDialogueGraphNode_Edge FName) → Bool
  | [] => false
  | Edge :: Rest =>
    if IsConditionInArray VariableName ConditionType Edge.Conditions then
      true
    else
      IsConditionInEdges VariableName ConditionType Rest

/-- Modelled from the spec: the loop over the nodes of
`GetGraphNodesForVariablesOfNameAndType`: "linear scan over all Nodes; for
each Node, check whether any Condition matches; check whether any Event
matches. If the owning Node matches, add Node to result; additionally scan
each Edge owned by that Node's transitions for Condition matches and add
matching Edges". The owning node matches when one of its own events or
conditions matches or when one of its edges does: "the Edge appears in the
result's edge set, and its owning Node also appears", as in the spec's
scenario, where edge E of node B gives nodes {B} and edges {E}. -/
def ScanNodesForVariables (VariableName : FName) (EventType : EDlgEventType)
    (ConditionType : EDlgConditionType) :
    List (UDialogueGraphNode FName) → FDialogueSearchFoundResult FName →
      FDialogueSearchFoundResult FName
  | [], FoundResult => FoundResult
  | Node :: Rest, FoundResult =>
    ScanNodesForVariables VariableName EventType ConditionType Rest
      (ScanEdgesForCondition VariableName ConditionType Node.Edges
        (if IsEventInArray VariableName EventType Node.Events ||
            IsConditionInArray VariableName ConditionType Node.Conditions ||
            IsConditionInEdges VariableName ConditionType Node.Edges then
          { FoundResult with GraphNodes := FoundResult.GraphNodes ++ [Node] }
        else FoundResult))

/-- Modelled from the spec: the body of the private
`GetGraphNodesForVariablesOfNameAndType` (declared at header lines 233-238):
a fresh result filled by the scan of every node of the dialogue for the
event type and the condition type. -/
def GetGraphNodesForVariablesOfNameAndType (VariableName : FName) (Dialogue : UDlgDialogue FName)
    (EventType : EDlgEventType) (ConditionType : EDlgConditionType) :
    FDialogueSearchFoundResult FName :=
  ScanNodesForVariables VariableName EventType ConditionType Dialogue.Nodes
    FDialogueSearchFoundResult.Make

/-- Modelled from the spec: the loop over the nodes of
`GetGraphNodesForTextArgumentVariable`: "check whether any TextArgument
matches `(ArgumentType, name)` against `VariableName`"; a matching node is
added to the result. Only nodes carry text arguments. -/
def ScanNodesForTextArgument (VariableName : FName) (ArgumentType : EDlgTextArgumentType) :
    List (UDialogueGraphNode FName) → FDialogueSearchFoundResult FName →
      FDialogueSearchFoundResult FName
  | [], FoundResult => FoundResult
  | Node :: Rest, FoundResult =>
    ScanNodesForTextArgument VariableName ArgumentType Rest
      (if IsTextArgumentInArray VariableName ArgumentType Node.TextArguments then
        { FoundResult with GraphNodes := FoundResult.GraphNodes ++ [Node] }
      else FoundResult)

/-- Modelled from the spec: the body of the private
`GetGraphNodesForTextArgumentVariable` (declared at header lines 240-245): it
adds to the result it is given, by reference, every node with a text argument
of the type and the name. -/
def GetGraphNodesForTextArgumentVariable (VariableName : FName) (Dialogue : UDlgDialogue FName)
    (ArgumentType : EDlgTextArgumentType) (FoundResult : FDialogueSearchFoundResult FName) :
    FDialogueSearchFoundResult FName :=
  ScanNodesForTextArgument VariableName ArgumentType Dialogue.Nodes FoundResult

/-! ## The nine public searches (header lines 56-186) -/

/-- Gets all the graph nodes that contain the specified `IntVariableName`
basic type (lines 60-70). -/
def GetGraphNodesForIntVariableName (IntVariableName : FName) (Dialogue : UDlgDialogue FName) :
    FDialogueSearchFoundResult FName :=
  let FoundResult := GetGraphNodesForVariablesOfNameAndType IntVariableName Dialogue
    EDlgEventType.ModifyInt EDlgConditionType.IntCall
  GetGraphNodesForTextArgumentVariable IntVariableName Dialogue
    EDlgTextArgumentType.DialogueInt FoundResult

/-- Gets all the graph nodes that contain the specified `FloatVariableName`
basic type (lines 76-86). The text-argument type passed at line 84 is
`DialogueInt`. -/
def GetGraphNodesForFloatVariableName (FloatVariableName : FName) (Dialogue : UDlgDialogue FName) :
    FDialogueSearchFoundResult FName :=
  let FoundResult := GetGraphNodesForVariablesOfNameAndType FloatVariableName Dialogue
    EDlgEventType.ModifyFloat EDlgConditionType.FloatCall
  GetGraphNodesForTextArgumentVariable FloatVariableName Dialogue
    EDlgTextArgumentType.DialogueInt FoundResult

/-- Gets all the graph nodes that contain the specified `BoolVariableName`
basic type (lines 92-100). -/
def GetGraphNodesForBoolVariableName (BoolVariableName : FName) (Dialogue : UDlgDialogue FName) :
    FDialogueSearchFoundResult FName :=
  GetGraphNodesForVariablesOfNameAndType BoolVariableName Dialogue
    EDlgEventType.ModifyBool EDlgConditionType.BoolCall

/-- Gets all the graph nodes that contain the specified `FNameVariableName`
basic type (lines 106-114). -/
def GetGraphNodesForFNameVariableName (FNameVariableName : FName) (Dialogue : UDlgDialogue FName) :
    FDialogueSearchFoundResult FName :=
  GetGraphNodesForVariablesOfNameAndType FNameVariableName Dialogue
    EDlgEventType.ModifyName EDlgConditionType.NameCall

/-- Gets all the graph nodes that contain the specified `IntVariableName`
from the UClass (lines 120-130). -/
def GetGraphNodesForClassIntVariableName (IntVariableName : FName) (Dialogue : UDlgDialogue FName) :
    FDialogueSearchFoundResult FName :=
  let FoundResult := GetGraphNodesForVariablesOfNameAndType IntVariableName Dialogue
    EDlgEventType.ModifyClassIntVariable EDlgConditionType.ClassIntVariable
  GetGraphNodesForTextArgumentVariable IntVariableName Dialogue
    EDlgTextArgumentType.ClassInt FoundResult

/-- Gets all the graph nodes that contain the specified `FloatVariableName`
from the UClass (lines 136-147). -/
def GetGraphNodesForClassFloatVariableName (FloatVariableName : FName)
    (Dialogue : UDlgDialogue FName) : FDialogueSearchFoundResult FName :=
  let FoundResult := GetGraphNodesForVariablesOfNameAndType FloatVariableName Dialogue
    EDlgEventType.ModifyClassFloatVariable EDlgConditionType.FloatVariable
  GetGraphNodesForTextArgumentVariable FloatVariableName Dialogue
    EDlgTextArgumentType.ClassFloat FoundResult

/-- Gets all the graph nodes that contain the specified `BoolVariableName`
from the UClass (lines 153-161). -/
def GetGraphNodesForClassBoolVariableName (BoolVariableName : FName)
    (Dialogue : UDlgDialogue FName) : FDialogueSearchFoundResult FName :=
  GetGraphNodesForVariablesOfNameAndType BoolVariableName Dialogue
    EDlgEventType.ModifyClassBoolVariable EDlgConditionType.ClassBoolVariable

/-- Gets all the graph nodes that contain the specified `FNameVariableName`
from the UClass (lines 167-175). -/
def GetGraphNodesForClassFNameVariableName (FNameVariableName : FName)
    (Dialogue : UDlgDialogue FName) : FDialogueSearchFoundResult FName :=
  GetGraphNodesForVariablesOfNameAndType FNameVariableName Dialogue
    EDlgEventType.ModifyClassNameVariable EDlgConditionType.ClassNameVariable

/-- Gets all the graph nodes that contain the specified `FTextVariableName`
from the UClass (lines 181-186): text arguments only. -/
def GetGraphNodesForClassFTextVariableName (FTextVariableName : FName)
    (Dialogue : UDlgDialogue FName) : FDialogueSearchFoundResult FName :=
  let FoundResult : FDialogueSearchFoundResult FName := FDialogueSearchFoundResult.Make
  GetGraphNodesForTextArgumentVariable FTextVariableName Dialogue
    EDlgTextArgumentType.ClassText FoundResult

/-! ## Sample dialogues

Names are strings here; `"None"` stands for a name field left unset. -/

/-- Node A of the spec's first scenario: its only reference is the event
`(ModifyBool, "Flag1")`. -/
def scenarioNodeA : UDialogueGraphNode String :=
  { Id := 1, Conditions := [], Events := [⟨EDlgEventType.ModifyBool, "Flag1"⟩],
    TextArguments := [], Edges := [] }

/-- Edge E of the spec's second scenario: one condition of type `IntCall`
with `CallbackName = "Score"`. -/
def scenarioEdgeE : UDialogueGraphNode_Edge String :=
  { Id := 10, Conditions := [⟨EDlgConditionType.IntCall, "Score", "None"⟩] }

/-- Node B of the spec's second scenario: it owns edge E and has no
condition, event or text argument of its own. -/
def scenarioNodeB : UDialogueGraphNode String :=
  { Id := 2, Conditions := [], Events := [], TextArguments := [], Edges := [scenarioEdgeE] }

/-- A node whose enter condition is `(IntCall, CallbackName = "Score")`. -/
def scoreConditionNode : UDialogueGraphNode String :=
  { Id := 3, Conditions := [⟨EDlgConditionType.IntCall, "Score", "None"⟩], Events := [],
    TextArguments := [], Edges := [] }

/-- A node whose only reference is the event `(ModifyClassIntVariable, "X")`. -/
def classIntEventNode : UDialogueGraphNode String :=
  { Id := 4, Conditions := [], Events := [⟨EDlgEventType.ModifyClassIntVariable, "X"⟩],
    TextArguments := [], Edges := [] }

/-- A node whose only reference is the text argument `(DialogueFloat, "Speed")`. -/
def floatTextNode : UDialogueGraphNode String :=
  { Id := 5, Conditions := [], Events := [],
    TextArguments := [⟨EDlgTextArgumentType.DialogueFloat, "Speed"⟩], Edges := [] }

/-- A node whose only reference is the text argument `(DialogueInt, "Speed")`. -/
def intTextNode : UDialogueGraphNode String :=
  { Id := 6, Conditions := [], Events := [],
    TextArguments := [⟨EDlgTextArgumentType.DialogueInt, "Speed"⟩], Edges := [] }

/-- An edge with one condition of type `BoolCall` with
`CallbackName = "Flag1"`. -/
def flagEdge : UDialogueGraphNode_Edge String :=
  { Id := 11, Conditions := [⟨EDlgConditionType.BoolCall, "Flag1", "None"⟩] }

/-- A node that owns the `"Flag1"` edge and has no condition, event or text
argument of its own. -/
def flagEdgeOwnerNode : UDialogueGraphNode String :=
  { Id := 7, Conditions := [], Events := [], TextArguments := [], Edges := [flagEdge] }

/-- A dialogue with node A and the owner of the `"Flag1"` edge. -/
def flagEdgeDialogue : UDlgDialogue String :=
  { Nodes := [scenarioNodeA, flagEdgeOwnerNode] }

/-- The dialogue of the first scenario: node A, and node B with its edge E. -/
def boolScenarioDialogue : UDlgDialogue String :=
  { Nodes := [scenarioNodeA, scenarioNodeB] }

/-- The dialogue of the second scenario: node B with its edge E. -/
def intScenarioDialogue : UDlgDialogue String :=
  { Nodes := [scenarioNodeB] }

/-- A dialogue with the class-int event node only. -/
def classIntDialogue : UDlgDialogue String :=
  { Nodes := [classIntEventNode] }

/-- A dialogue with the float and the int text-argument nodes. -/
def textArgumentDialogue : UDlgDialogue String :=
  { Nodes := [floatTextNode, intTextNode] }

/-- A dialogue with every sample node. -/
def sampleDialogue : UDlgDialogue String :=
  { Nodes := [scenarioNodeA, scenarioNodeB, scoreConditionNode, classIntEventNode,
      floatTextNode, intTextNode] }

/-! ## Lemmas on the array predicates -/

theorem isConditionInArray_iff_exists (N : FName) (T : EDlgConditionType)
    (Cs : List (FDlgCondition FName)) :
    IsConditionInArray N T Cs = true ↔
      ∃ c ∈ Cs, c.ConditionType = T ∧ (c.CallbackName = N ∨ c.OtherVariableName = N) := by
  induction Cs with
  | nil => simp [IsConditionInArray]
  | cons c rest ih =>
    by_cases h : c.ConditionType = T ∧ (c.CallbackName = N ∨ c.OtherVariableName = N)
    · simp [IsConditionInArray, h]
    · simp only [IsConditionInArray, h, if_false, ih, List.mem_cons, exists_eq_or_imp, false_or]

theorem isEventInArray_iff_exists (N : FName) (T : EDlgEventType) (Es : List (FDlgEvent FName)) :
    IsEventInArray N T Es = true ↔ ∃ e ∈ Es, e.EventType = T ∧ e.EventName = N := by
  induction Es with
  | nil => simp [IsEventInArray]
  | cons e rest ih =>
    by_cases h : e.EventType = T ∧ e.EventName = N
    · simp [IsEventInArray, h]
    · simp only [IsEventInArray, h, if_false, ih, List.mem_cons, exists_eq_or_imp, false_or]

theorem isTextArgumentInArray_iff_exists (N : FName) (T : EDlgTextArgumentType)
    (As : List (FDlgTextArgument FName)) :
    IsTextArgumentInArray N T As = true ↔ ∃ a ∈ As, a.Type_ = T ∧ a.VariableName = N := by
  induction As with
  | nil => simp [IsTextArgumentInArray]
  | cons a rest ih =>
    by_cases h : a.Type_ = T ∧ a.VariableName = N
    · simp [IsTextArgumentInArray, h]
    · simp only [IsTextArgumentInArray, h, if_false, ih, List.mem_cons, exists_eq_or_imp,
        false_or]

theorem isConditionInArray_append_eq (N : FName) (T : EDlgConditionType)
    (A B : List (FDlgCondition FName)) :
    IsConditionInArray N T (A ++ B) = (IsConditionInArray N T A || IsConditionInArray N T B) := by
  induction A with
  | nil => simp [IsConditionInArray]
  | cons c rest ih =>
    by_cases h : c.ConditionType = T ∧ (c.CallbackName = N ∨ c.OtherVariableName = N)
    · simp [IsConditionInArray, h]
    · rw [List.cons_append]
      simp only [IsConditionInArray, h, if_false, ih]

/-! ## Lemmas on the scans: what each loop appends to the result -/

theorem isConditionInEdges_iff_exists (N : FName) (T : EDlgConditionType)
    (Es : List (UDialogueGraphNode_Edge FName)) :
    IsConditionInEdges N T Es = true ↔
      ∃ e ∈ Es, IsConditionInArray N T e.Conditions = true := by
  induction Es with
  | nil => simp [IsConditionInEdges]
  | cons e rest ih =>
    by_cases h : IsConditionInArray N T e.Conditions = true
    · simp [IsConditionInEdges, h]
    · simp only [IsConditionInEdges, h, Bool.false_eq_true, if_false, ih, List.mem_cons,
        exists_eq_or_imp, false_or]

theorem scanEdgesForCondition_eq (N : FName) (T : EDlgConditionType)
    (Es : List (UDialogueGraphNode_Edge FName)) (R : FDialogueSearchFoundResult FName) :
    ScanEdgesForCondition N T Es R =
      { GraphNodes := R.GraphNodes,
        EdgeNodes := R.EdgeNodes ++ Es.filter (fun e => IsConditionInArray N T e.Conditions) } := by
  induction Es generalizing R with
  | nil => simp [ScanEdgesForCondition]
  | cons e rest ih =>
    by_cases h : IsConditionInArray N T e.Conditions = true
    · simp [ScanEdgesForCondition, ih, h]
    · simp [ScanEdgesForCondition, ih, h]

theorem scanNodesForVariables_eq (N : FName) (E : EDlgEventType) (T : EDlgConditionType)
    (Ns : List (UDialogueGraphNode FName)) (R : FDialogueSearchFoundResult FName) :
    ScanNodesForVariables N E T Ns R =
      { GraphNodes := R.GraphNodes ++
          Ns.filter (fun n => IsEventInArray N E n.Events ||
            IsConditionInArray N T n.Conditions || IsConditionInEdges N T n.Edges),
        EdgeNodes := R.EdgeNodes ++
          Ns.flatMap (fun n => n.Edges.filter (fun e => IsConditionInArray N T e.Conditions)) } := by
  induction Ns generalizing R with
  | nil => simp [ScanNodesForVariables]
  | cons n rest ih =>
    by_cases h : (IsEventInArray N E n.Events || IsConditionInArray N T n.Conditions ||
        IsConditionInEdges N T n.Edges) = true
    · simp [ScanNodesForVariables, ih, scanEdgesForCondition_eq, h, List.filter_cons]
    · simp [ScanNodesForVariables, ih, scanEdgesForCondition_eq, h, List.filter_cons]

theorem scanNodesForTextArgument_eq (N : FName) (A : EDlgTextArgumentType)
    (Ns : List (UDialogueGraphNode FName)) (R : FDialogueSearchFoundResult FName) :
    ScanNodesForTextArgument N A Ns R =
      { GraphNodes := R.GraphNodes ++
          Ns.filter (fun n => IsTextArgumentInArray N A n.TextArguments),
        EdgeNodes := R.EdgeNodes } := by
  induction Ns generalizing R with
  | nil => simp [ScanNodesForTextArgument]
  | cons n rest ih =>
    by_cases h : IsTextArgumentInArray N A n.TextArguments = true
    · simp [ScanNodesForTextArgument, ih, h]
    · simp [ScanNodesForTextArgument, ih, h]

/-- A node is in the node list of the event-and-condition scan exactly when it
is a node of the dialogue and one of its own events or conditions matches, or
a condition of one of its edges does. -/
theorem mem_variables_graphNodes (N : FName) (G : UDlgDialogue FName) (E : EDlgEventType)
    (T : EDlgConditionType) (n : UDialogueGraphNode FName) :
    n ∈ (GetGraphNodesForVariablesOfNameAndType N G E T).GraphNodes ↔
      n ∈ G.Nodes ∧
        (IsEventInArray N E n.Events = true ∨ IsConditionInArray N T n.Conditions = true ∨
          IsConditionInEdges N T n.Edges = true) := by
  simp [GetGraphNodesForVariablesOfNameAndType, scanNodesForVariables_eq,
    FDialogueSearchFoundResult.Make, List.mem_filter, or_assoc]

/-- An edge is in the edge list of the event-and-condition scan exactly when a
node of the dialogue owns it and one of its conditions matches. -/
theorem mem_variables_edgeNodes (N : FName) (G : UDlgDialogue FName) (E : EDlgEventType)
    (T : EDlgConditionType) (e : UDialogueGraphNode_Edge FName) :
    e ∈ (GetGraphNodesForVariablesOfNameAndType N G E T).EdgeNodes ↔
      ∃ n ∈ G.Nodes, e ∈ n.Edges ∧ IsConditionInArray N T e.Conditions = true := by
  simp [GetGraphNodesForVariablesOfNameAndType, scanNodesForVariables_eq,
    FDialogueSearchFoundResult.Make, List.mem_filter, List.mem_flatMap]

/-- The text-argument scan keeps the nodes it was given and adds the nodes of
the dialogue with a matching text argument. -/
theorem mem_textArgument_graphNodes (N : FName) (G : UDlgDialogue FName)
    (A : EDlgTextArgumentType) (R : FDialogueSearchFoundResult FName)
    (n : UDialogueGraphNode FName) :
    n ∈ (GetGraphNodesForTextArgumentVariable N G A R).GraphNodes ↔
      n ∈ R.GraphNodes ∨ (n ∈ G.Nodes ∧ IsTextArgumentInArray N A n.TextArguments = true) := by
  simp [GetGraphNodesForTextArgumentVariable, scanNodesForTextArgument_eq, List.mem_filter]

/-- The text-argument scan leaves the edges of the result as they were. -/
theorem textArgument_edgeNodes (N : FName) (G : UDlgDialogue FName)
    (A : EDlgTextArgumentType) (R : FDialogueSearchFoundResult FName) :
    (GetGraphNodesForTextArgumentVariable N G A R).EdgeNodes = R.EdgeNodes := by
  simp [GetGraphNodesForTextArgumentVariable, scanNodesForTextArgument_eq]

/-! ## Lemmas on a name that is absent from the dialogue -/

theorem isConditionInArray_false_of_absent (N : FName) (T : EDlgConditionType)
    (Cs : List (FDlgCondition FName))
    (h : ∀ c ∈ Cs, c.CallbackName ≠ N ∧ c.OtherVariableName ≠ N) :
    IsConditionInArray N T Cs = false := by
  rw [Bool.eq_false_iff]
  intro hc
  obtain ⟨c, hmem, _, hname⟩ := (isConditionInArray_iff_exists N T Cs).mp hc
  rcases hname with h1 | h2
  · exact (h c hmem).1 h1
  · exact (h c hmem).2 h2

theorem isEventInArray_false_of_absent (N : FName) (T : EDlgEventType)
    (Es : List (FDlgEvent FName)) (h : ∀ e ∈ Es, e.EventName ≠ N) :
    IsEventInArray N T Es = false := by
  rw [Bool.eq_false_iff]
  intro hc
  obtain ⟨e, hmem, _, hname⟩ := (isEventInArray_iff_exists N T Es).mp hc
  exact h e hmem hname

theorem isTextArgumentInArray_false_of_absent (N : FName) (T : EDlgTextArgumentType)
    (As : List (FDlgTextArgument FName)) (h : ∀ a ∈ As, a.VariableName ≠ N) :
    IsTextArgumentInArray N T As = false := by
  rw [Bool.eq_false_iff]
  intro hc
  obtain ⟨a, hmem, _, hname⟩ := (isTextArgumentInArray_iff_exists N T As).mp hc
  exact h a hmem hname

theorem result_eq_make {α : Type} (R : FDialogueSearchFoundResult α) (hn : R.GraphNodes = [])
    (he : R.EdgeNodes = []) : R = FDialogueSearchFoundResult.Make := by
  cases R
  simp_all [FDialogueSearchFoundResult.Make]

theorem variables_eq_make_of_absent (N : FName) (G : UDlgDialogue FName) (E : EDlgEventType)
    (T : EDlgConditionType)
    (hC : ∀ n ∈ G.Nodes, ∀ c ∈ n.Conditions, c.CallbackName ≠ N ∧ c.OtherVariableName ≠ N)
    (hCE : ∀ n ∈ G.Nodes, ∀ e ∈ n.Edges, ∀ c ∈ e.Conditions,
      c.CallbackName ≠ N ∧ c.OtherVariableName ≠ N)
    (hE : ∀ n ∈ G.Nodes, ∀ ev ∈ n.Events, ev.EventName ≠ N) :
    GetGraphNodesForVariablesOfNameAndType N G E T = FDialogueSearchFoundResult.Make := by
  apply result_eq_make
  · rw [List.eq_nil_iff_forall_not_mem]
    intro n hn
    obtain ⟨hmem, hev | hcond | hedges⟩ := (mem_variables_graphNodes N G E T n).mp hn
    · rw [isEventInArray_false_of_absent N E n.Events (hE n hmem)] at hev
      exact Bool.false_ne_true hev
    · rw [isConditionInArray_false_of_absent N T n.Conditions (hC n hmem)] at hcond
      exact Bool.false_ne_true hcond
    · obtain ⟨e, he, hcond⟩ := (isConditionInEdges_iff_exists N T n.Edges).mp hedges
      rw [isConditionInArray_false_of_absent N T e.Conditions (hCE n hmem e he)] at hcond
      exact Bool.false_ne_true hcond
  · rw [List.eq_nil_iff_forall_not_mem]
    intro e he
    obtain ⟨n, hmem, hedge, hcond⟩ := (mem_variables_edgeNodes N G E T e).mp he
    rw [isConditionInArray_false_of_absent N T e.Conditions (hCE n hmem e hedge)] at hcond
    exact Bool.false_ne_true hcond

theorem textArgument_eq_of_absent (N : FName) (G : UDlgDialogue FName)
    (A : EDlgTextArgumentType) (R : FDialogueSearchFoundResult FName)
    (hT : ∀ n ∈ G.Nodes, ∀ a ∈ n.TextArguments, a.VariableName ≠ N) :
    GetGraphNodesForTextArgumentVariable N G A R = R := by
  have hfilter : G.Nodes.filter (fun n => IsTextArgumentInArray N A n.TextArguments) = [] := by
    rw [List.eq_nil_iff_forall_not_mem]
    intro n hn
    obtain ⟨hmem, harg⟩ := List.mem_filter.mp hn
    rw [isTextArgumentInArray_false_of_absent N A n.TextArguments (hT n hmem)] at harg
    exact Bool.false_ne_true harg
  simp [GetGraphNodesForTextArgumentVariable, scanNodesForTextArgument_eq, hfilter]

/-! ## Theorems on the array predicates -/

/-- C1: `IsConditionInArray(N, T, Cs)` is true exactly when some condition of
`Cs` has type `T` and has `N` as its `CallbackName` or as its
`OtherVariableName`. -/
theorem IsConditionInArray_true_iff (N : FName) (T : EDlgConditionType)
    (Cs : List (FDlgCondition FName)) :
    IsConditionInArray N T Cs = true ↔
      ∃ c ∈ Cs, c.ConditionType = T ∧ (c.CallbackName = N ∨ c.OtherVariableName = N) :=
  isConditionInArray_iff_exists N T Cs

/-- C7: `IsEventInArray(N, T, Es)` is true exactly when some event of `Es` has
type `T` and name `N`; it is false on the empty array. -/
theorem IsEventInArray_true_iff (N : FName) (T : EDlgEventType) (Es : List (FDlgEvent FName)) :
    (IsEventInArray N T Es = true ↔ ∃ e ∈ Es, e.EventType = T ∧ e.EventName = N) ∧
      IsEventInArray N T [] = false :=
  ⟨isEventInArray_iff_exists N T Es, rfl⟩

/-- C8: `IsTextArgumentInArray(N, T, As)` is true exactly when some text
argument of `As` has type `T` and variable name `N`; it is false on the empty
array. -/
theorem IsTextArgumentInArray_true_iff (N : FName) (T : EDlgTextArgumentType)
    (As : List (FDlgTextArgument FName)) :
    (IsTextArgumentInArray N T As = true ↔ ∃ a ∈ As, a.Type_ = T ∧ a.VariableName = N) ∧
      IsTextArgumentInArray N T [] = false :=
  ⟨isTextArgumentInArray_iff_exists N T As, rfl⟩

/-- C10: `IsConditionInArray` of a concatenation is the OR of the two parts;
so it is the same on any reordering of the conditions, and a true result stays
true when conditions are added before or after. -/
theorem IsConditionInArray_append (N : FName) (T : EDlgConditionType) :
    (∀ A B : List (FDlgCondition FName),
      IsConditionInArray N T (A ++ B) =
        (IsConditionInArray N T A || IsConditionInArray N T B)) ∧
    (∀ A B : List (FDlgCondition FName), A.Perm B →
      IsConditionInArray N T A = IsConditionInArray N T B) ∧
    (∀ A B : List (FDlgCondition FName), IsConditionInArray N T A = true →
      IsConditionInArray N T (A ++ B) = true ∧ IsConditionInArray N T (B ++ A) = true) := by
  refine ⟨isConditionInArray_append_eq N T, ?_, ?_⟩
  · intro A B hperm
    rw [Bool.eq_iff_iff, isConditionInArray_iff_exists, isConditionInArray_iff_exists]
    constructor
    · rintro ⟨c, hc, h⟩
      exact ⟨c, hperm.mem_iff.mp hc, h⟩
    · rintro ⟨c, hc, h⟩
      exact ⟨c, hperm.mem_iff.mpr hc, h⟩
  · intro A B hA
    simp [isConditionInArray_append_eq, hA]

/-! ## Theorems on the searches -/

/-- C2: when the name `N` is not the `CallbackName` or `OtherVariableName` of
any condition (of a node or of an edge), not the `EventName` of any event and
not the `VariableName` of any text argument of the dialogue, each of the nine
searches returns the empty result: no nodes and no edges. Every search is a
total function, so it returns a result on every input. -/
theorem search_of_absent_name_eq_make (N : FName) (G : UDlgDialogue FName)
    (hC : ∀ n ∈ G.Nodes, ∀ c ∈ n.Conditions, c.CallbackName ≠ N ∧ c.OtherVariableName ≠ N)
    (hCE : ∀ n ∈ G.Nodes, ∀ e ∈ n.Edges, ∀ c ∈ e.Conditions,
      c.CallbackName ≠ N ∧ c.OtherVariableName ≠ N)
    (hE : ∀ n ∈ G.Nodes, ∀ ev ∈ n.Events, ev.EventName ≠ N)
    (hT : ∀ n ∈ G.Nodes, ∀ a ∈ n.TextArguments, a.VariableName ≠ N) :
    GetGraphNodesForIntVariableName N G = FDialogueSearchFoundResult.Make ∧
    GetGraphNodesForFloatVariableName N G = FDialogueSearchFoundResult.Make ∧
    GetGraphNodesForBoolVariableName N G = FDialogueSearchFoundResult.Make ∧
    GetGraphNodesForFNameVariableName N G = FDialogueSearchFoundResult.Make ∧
    GetGraphNodesForClassIntVariableName N G = FDialogueSearchFoundResult.Make ∧
    GetGraphNodesForClassFloatVariableName N G = FDialogueSearchFoundResult.Make ∧
    GetGraphNodesForClassBoolVariableName N G = FDialogueSearchFoundResult.Make ∧
    GetGraphNodesForClassFNameVariableName N G = FDialogueSearchFoundResult.Make ∧
    GetGraphNodesForClassFTextVariableName N G = FDialogueSearchFoundResult.Make := by
  have hV := fun E T => variables_eq_make_of_absent N G E T hC hCE hE
  have hA := fun A R => textArgument_eq_of_absent N G A R hT
  refine ⟨?_, ?_, ?_, ?_, ?_, ?_, ?_, ?_, ?_⟩
  · simp only [GetGraphNodesForIntVariableName, hV, hA]
  · simp only [GetGraphNodesForFloatVariableName, hV, hA]
  · simp only [GetGraphNodesForBoolVariableName, hV]
  · simp only [GetGraphNodesForFNameVariableName, hV]
  · simp only [GetGraphNodesForClassIntVariableName, hV, hA]
  · simp only [GetGraphNodesForClassFloatVariableName, hV, hA]
  · simp only [GetGraphNodesForClassBoolVariableName, hV]
  · simp only [GetGraphNodesForClassFNameVariableName, hV]
  · simp only [GetGraphNodesForClassFTextVariableName, hA]

/-- The name `"Missing"` occurs nowhere in the sample dialogue, which holds
references to other names in conditions, events, text arguments and on an
edge; the int search for it (and every other search) is empty. -/
theorem search_of_absent_name_witness :
    (∀ n ∈ sampleDialogue.Nodes, ∀ c ∈ n.Conditions,
      c.CallbackName ≠ "Missing" ∧ c.OtherVariableName ≠ "Missing") ∧
    (∀ n ∈ sampleDialogue.Nodes, ∀ e ∈ n.Edges, ∀ c ∈ e.Conditions,
      c.CallbackName ≠ "Missing" ∧ c.OtherVariableName ≠ "Missing") ∧
    (∀ n ∈ sampleDialogue.Nodes, ∀ ev ∈ n.Events, ev.EventName ≠ "Missing") ∧
    (∀ n ∈ sampleDialogue.Nodes, ∀ a ∈ n.TextArguments, a.VariableName ≠ "Missing") ∧
    GetGraphNodesForIntVariableName "Missing" sampleDialogue =
      { GraphNodes := [], EdgeNodes := [] } ∧
    GetGraphNodesForClassFTextVariableName "Missing" sampleDialogue =
      { GraphNodes := [], EdgeNodes := [] } :=
  have h := search_of_absent_name_eq_make "Missing" sampleDialogue
    (by decide) (by decide) (by decide) (by decide)
  ⟨by decide, by decide, by decide, by decide, h.1, h.2.2.2.2.2.2.2.2⟩

/-- C3: an edge of the dialogue that carries a condition of type `T` with
`OtherVariableName = N` or `CallbackName = N` is in the edge collection of the
search whose condition type is `T`, and the node that owns the edge is in the
node collection of that search, whatever the node itself holds. -/
theorem matching_edge_and_owner_listed (N : FName) (G : UDlgDialogue FName)
    (n : UDialogueGraphNode FName) (e : UDialogueGraphNode_Edge FName) (T : EDlgConditionType)
    (hn : n ∈ G.Nodes) (he : e ∈ n.Edges)
    (hc : ∃ c ∈ e.Conditions, c.ConditionType = T ∧ (c.OtherVariableName = N ∨ c.CallbackName = N)) :
    (T = EDlgConditionType.IntCall →
      e ∈ (GetGraphNodesForIntVariableName N G).EdgeNodes ∧
      n ∈ (GetGraphNodesForIntVariableName N G).GraphNodes) ∧
    (T = EDlgConditionType.FloatCall →
      e ∈ (GetGraphNodesForFloatVariableName N G).EdgeNodes ∧
      n ∈ (GetGraphNodesForFloatVariableName N G).GraphNodes) ∧
    (T = EDlgConditionType.BoolCall →
      e ∈ (GetGraphNodesForBoolVariableName N G).EdgeNodes ∧
      n ∈ (GetGraphNodesForBoolVariableName N G).GraphNodes) ∧
    (T = EDlgConditionType.NameCall →
      e ∈ (GetGraphNodesForFNameVariableName N G).EdgeNodes ∧
      n ∈ (GetGraphNodesForFNameVariableName N G).GraphNodes) ∧
    (T = EDlgConditionType.ClassIntVariable →
      e ∈ (GetGraphNodesForClassIntVariableName N G).EdgeNodes ∧
      n ∈ (GetGraphNodesForClassIntVariableName N G).GraphNodes) ∧
    (T = EDlgConditionType.FloatVariable →
      e ∈ (GetGraphNodesForClassFloatVariableName N G).EdgeNodes ∧
      n ∈ (GetGraphNodesForClassFloatVariableName N G).GraphNodes) ∧
    (T = EDlgConditionType.ClassBoolVariable →
      e ∈ (GetGraphNodesForClassBoolVariableName N G).EdgeNodes ∧
      n ∈ (GetGraphNodesForClassBoolVariableName N G).GraphNodes) ∧
    (T = EDlgConditionType.ClassNameVariable →
      e ∈ (GetGraphNodesForClassFNameVariableName N G).EdgeNodes ∧
      n ∈ (GetGraphNodesForClassFNameVariableName N G).GraphNodes) := by
  have hcond : IsConditionInArray N T e.Conditions = true := by
    obtain ⟨c, hmem, htype, hname⟩ := hc
    exact (isConditionInArray_iff_exists N T e.Conditions).mpr ⟨c, hmem, htype, hname.symm⟩
  have hedge : ∀ E, e ∈ (GetGraphNodesForVariablesOfNameAndType N G E T).EdgeNodes :=
    fun E => (mem_variables_edgeNodes N G E T e).mpr ⟨n, hn, he, hcond⟩
  have hnode : ∀ E, n ∈ (GetGraphNodesForVariablesOfNameAndType N G E T).GraphNodes :=
    fun E => (mem_variables_graphNodes N G E T n).mpr
      ⟨hn, Or.inr (Or.inr ((isConditionInEdges_iff_exists N T n.Edges).mpr ⟨e, he, hcond⟩))⟩
  have hA : ∀ A R, n ∈ R.GraphNodes →
      n ∈ (GetGraphNodesForTextArgumentVariable N G A R).GraphNodes :=
    fun A R hR => (mem_textArgument_graphNodes N G A R n).mpr (Or.inl hR)
  refine ⟨?_, ?_, ?_, ?_, ?_, ?_, ?_, ?_⟩
  · rintro rfl
    refine ⟨?_, hA _ _ (hnode _)⟩
    simpa only [GetGraphNodesForIntVariableName, textArgument_edgeNodes] using hedge _
  · rintro rfl
    refine ⟨?_, hA _ _ (hnode _)⟩
    simpa only [GetGraphNodesForFloatVariableName, textArgument_edgeNodes] using hedge _
  · rintro rfl
    exact ⟨hedge _, hnode _⟩
  · rintro rfl
    exact ⟨hedge _, hnode _⟩
  · rintro rfl
    refine ⟨?_, hA _ _ (hnode _)⟩
    simpa only [GetGraphNodesForClassIntVariableName, textArgument_edgeNodes] using hedge _
  · rintro rfl
    refine ⟨?_, hA _ _ (hnode _)⟩
    simpa only [GetGraphNodesForClassFloatVariableName, textArgument_edgeNodes] using hedge _
  · rintro rfl
    exact ⟨hedge _, hnode _⟩
  · rintro rfl
    exact ⟨hedge _, hnode _⟩

/-- The spec's scenario for C3: edge E of node B carries
`Condition{IntCall, CallbackName = "Score"}` and node B has nothing of its
own; the int search for `"Score"` gives nodes {B} and edges {E}. -/
theorem matching_edge_and_owner_witness :
    scenarioNodeB ∈ intScenarioDialogue.Nodes ∧
    scenarioEdgeE ∈ scenarioNodeB.Edges ∧
    scenarioNodeB.Conditions = [] ∧ scenarioNodeB.Events = [] ∧
    scenarioNodeB.TextArguments = [] ∧
    (scenarioEdgeE ∈ (GetGraphNodesForIntVariableName "Score" intScenarioDialogue).EdgeNodes ∧
     scenarioNodeB ∈ (GetGraphNodesForIntVariableName "Score" intScenarioDialogue).GraphNodes) ∧
    GetGraphNodesForIntVariableName "Score" intScenarioDialogue =
      { GraphNodes := [scenarioNodeB], EdgeNodes := [scenarioEdgeE] } :=
  ⟨by decide, by decide, rfl, rfl, rfl,
    (matching_edge_and_owner_listed "Score" intScenarioDialogue scenarioNodeB scenarioEdgeE
      EDlgConditionType.IntCall (by decide) (by decide)
      ⟨⟨EDlgConditionType.IntCall, "Score", "None"⟩, by decide, rfl, Or.inr rfl⟩).1 rfl,
    by decide⟩

/-- C4: a node of the dialogue that holds a condition of type `T` with
`CallbackName = N` is in the node collection of the search whose condition
type is `T`, for each of the eight searches that have a condition type. -/
theorem node_with_callback_condition_listed (N : FName) (G : UDlgDialogue FName)
    (n : UDialogueGraphNode FName) (T : EDlgConditionType)
    (hn : n ∈ G.Nodes)
    (hc : ∃ c ∈ n.Conditions, c.ConditionType = T ∧ c.CallbackName = N) :
    (T = EDlgConditionType.IntCall → n ∈ (GetGraphNodesForIntVariableName N G).GraphNodes) ∧
    (T = EDlgConditionType.FloatCall → n ∈ (GetGraphNodesForFloatVariableName N G).GraphNodes) ∧
    (T = EDlgConditionType.BoolCall → n ∈ (GetGraphNodesForBoolVariableName N G).GraphNodes) ∧
    (T = EDlgConditionType.NameCall → n ∈ (GetGraphNodesForFNameVariableName N G).GraphNodes) ∧
    (T = EDlgConditionType.ClassIntVariable →
      n ∈ (GetGraphNodesForClassIntVariableName N G).GraphNodes) ∧
    (T = EDlgConditionType.FloatVariable →
      n ∈ (GetGraphNodesForClassFloatVariableName N G).GraphNodes) ∧
    (T = EDlgConditionType.ClassBoolVariable →
      n ∈ (GetGraphNodesForClassBoolVariableName N G).GraphNodes) ∧
    (T = EDlgConditionType.ClassNameVariable →
      n ∈ (GetGraphNodesForClassFNameVariableName N G).GraphNodes) := by
  have hcond : IsConditionInArray N T n.Conditions = true := by
    obtain ⟨c, hmem, htype, hname⟩ := hc
    exact (isConditionInArray_iff_exists N T n.Conditions).mpr ⟨c, hmem, htype, Or.inl hname⟩
  have hV : ∀ E, n ∈ (GetGraphNodesForVariablesOfNameAndType N G E T).GraphNodes :=
    fun E => (mem_variables_graphNodes N G E T n).mpr ⟨hn, Or.inr (Or.inl hcond)⟩
  have hA : ∀ A R, n ∈ R.GraphNodes →
      n ∈ (GetGraphNodesForTextArgumentVariable N G A R).GraphNodes :=
    fun A R hR => (mem_textArgument_graphNodes N G A R n).mpr (Or.inl hR)
  refine ⟨?_, ?_, ?_, ?_, ?_, ?_, ?_, ?_⟩
  · rintro rfl
    exact hA _ _ (hV _)
  · rintro rfl
    exact hA _ _ (hV _)
  · rintro rfl
    exact hV _
  · rintro rfl
    exact hV _
  · rintro rfl
    exact hA _ _ (hV _)
  · rintro rfl
    exact hA _ _ (hV _)
  · rintro rfl
    exact hV _
  · rintro rfl
    exact hV _

/-- The node with the enter condition `(IntCall, CallbackName = "Score")` is
found by the int search for `"Score"` in the sample dialogue. -/
theorem node_with_callback_condition_witness :
    scoreConditionNode ∈ sampleDialogue.Nodes ∧
    (∃ c ∈ scoreConditionNode.Conditions,
      c.ConditionType = EDlgConditionType.IntCall ∧ c.CallbackName = "Score") ∧
    scoreConditionNode ∈ (GetGraphNodesForIntVariableName "Score" sampleDialogue).GraphNodes :=
  have hc : ∃ c ∈ scoreConditionNode.Conditions,
      c.ConditionType = EDlgConditionType.IntCall ∧ c.CallbackName = "Score" :=
    ⟨⟨EDlgConditionType.IntCall, "Score", "None"⟩, by decide, rfl, rfl⟩
  ⟨by decide, hc,
    (node_with_callback_condition_listed "Score" sampleDialogue scoreConditionNode
      EDlgConditionType.IntCall (by decide) hc).1 rfl⟩

/-- C5, as stated, fails: a node whose only reference is the event
`(ModifyClassIntVariable, "X")` is found by the class-int scan (and by the
class-int search), and the int search for `"X"` returns nothing. -/
theorem int_search_omits_class_int :
    classIntEventNode ∈ (GetGraphNodesForVariablesOfNameAndType "X" classIntDialogue
      EDlgEventType.ModifyClassIntVariable EDlgConditionType.ClassIntVariable).GraphNodes ∧
    classIntEventNode ∈ (GetGraphNodesForClassIntVariableName "X" classIntDialogue).GraphNodes ∧
    GetGraphNodesForIntVariableName "X" classIntDialogue =
      { GraphNodes := [], EdgeNodes := [] } := by
  decide

/-- C5, amended: as sets of nodes and of edges, the int search is the union
of two scans, the basic-int scan (events `ModifyInt`, conditions `IntCall`)
and the `DialogueInt` text-argument scan run on an empty result. -/
theorem int_search_eq_union_of_two_scans (X : FName) (G : UDlgDialogue FName) :
    (∀ n, n ∈ (GetGraphNodesForIntVariableName X G).GraphNodes ↔
      n ∈ (GetGraphNodesForVariablesOfNameAndType X G
            EDlgEventType.ModifyInt EDlgConditionType.IntCall).GraphNodes ∨
      n ∈ (GetGraphNodesForTextArgumentVariable X G EDlgTextArgumentType.DialogueInt
            FDialogueSearchFoundResult.Make).GraphNodes) ∧
    (∀ e, e ∈ (GetGraphNodesForIntVariableName X G).EdgeNodes ↔
      e ∈ (GetGraphNodesForVariablesOfNameAndType X G
            EDlgEventType.ModifyInt EDlgConditionType.IntCall).EdgeNodes ∨
      e ∈ (GetGraphNodesForTextArgumentVariable X G EDlgTextArgumentType.DialogueInt
            FDialogueSearchFoundResult.Make).EdgeNodes) := by
  constructor
  · intro n
    simp only [GetGraphNodesForIntVariableName, mem_textArgument_graphNodes,
      FDialogueSearchFoundResult.Make, List.not_mem_nil, false_or]
  · intro e
    simp only [GetGraphNodesForIntVariableName, textArgument_edgeNodes,
      FDialogueSearchFoundResult.Make, List.not_mem_nil, or_false]

/-- C6: the basic float search, run for `"Speed"` on a dialogue with one node
holding the text argument `(DialogueFloat, "Speed")` and one node holding
`(DialogueInt, "Speed")`, returns the second node and not the first: its
text-argument scan is run with `DialogueInt`. -/
theorem float_search_scans_int_text_arguments :
    floatTextNode ∈ textArgumentDialogue.Nodes ∧
    (∃ a ∈ floatTextNode.TextArguments,
      a.Type_ = EDlgTextArgumentType.DialogueFloat ∧ a.VariableName = "Speed") ∧
    floatTextNode ∉ (GetGraphNodesForFloatVariableName "Speed" textArgumentDialogue).GraphNodes ∧
    GetGraphNodesForFloatVariableName "Speed" textArgumentDialogue =
      { GraphNodes := [intTextNode], EdgeNodes := [] } := by
  decide

/-- C9, as stated, fails: a node that holds no event and no condition, and
owns an edge with the condition `(BoolCall, CallbackName = "Flag1")`, is in
the node collection of the bool search for `"Flag1"`. -/
theorem bool_search_lists_edge_owner :
    flagEdgeOwnerNode ∈ flagEdgeDialogue.Nodes ∧
    flagEdgeOwnerNode.Events = [] ∧ flagEdgeOwnerNode.Conditions = [] ∧
    flagEdgeOwnerNode ∈ (GetGraphNodesForBoolVariableName "Flag1" flagEdgeDialogue).GraphNodes ∧
    GetGraphNodesForBoolVariableName "Flag1" flagEdgeDialogue =
      { GraphNodes := [scenarioNodeA, flagEdgeOwnerNode], EdgeNodes := [flagEdge] } := by
  decide

/-- C9, amended: the bool search returns exactly the nodes of the dialogue
that hold an event `(ModifyBool, N)` or a condition of type `BoolCall` naming
`N` (in `CallbackName` or `OtherVariableName`) or that own an edge holding
such a condition, and exactly the edges of the dialogue that hold such a
condition. Text arguments play no part. -/
theorem bool_search_exact (N : FName) (G : UDlgDialogue FName) :
    (∀ n, n ∈ (GetGraphNodesForBoolVariableName N G).GraphNodes ↔
      n ∈ G.Nodes ∧
        ((∃ ev ∈ n.Events, ev.EventType = EDlgEventType.ModifyBool ∧ ev.EventName = N) ∨
         (∃ c ∈ n.Conditions, c.ConditionType = EDlgConditionType.BoolCall ∧
            (c.CallbackName = N ∨ c.OtherVariableName = N)) ∨
         (∃ e ∈ n.Edges, ∃ c ∈ e.Conditions, c.ConditionType = EDlgConditionType.BoolCall ∧
            (c.CallbackName = N ∨ c.OtherVariableName = N)))) ∧
    (∀ e, e ∈ (GetGraphNodesForBoolVariableName N G).EdgeNodes ↔
      ∃ n ∈ G.Nodes, e ∈ n.Edges ∧
        ∃ c ∈ e.Conditions, c.ConditionType = EDlgConditionType.BoolCall ∧
          (c.CallbackName = N ∨ c.OtherVariableName = N)) := by
  constructor
  · intro n
    rw [GetGraphNodesForBoolVariableName, mem_variables_graphNodes,
      isEventInArray_iff_exists, isConditionInArray_iff_exists, isConditionInEdges_iff_exists]
    simp only [isConditionInArray_iff_exists]
  · intro e
    rw [GetGraphNodesForBoolVariableName, mem_variables_edgeNodes]
    simp only [isConditionInArray_iff_exists]

/-- The spec's scenario for C9: node A holds the event `(ModifyBool, "Flag1")`
and nothing else in the dialogue names `"Flag1"`; the bool search for
`"Flag1"` returns node A and no edge. -/
theorem bool_search_scenario :
    scenarioNodeA ∈ (GetGraphNodesForBoolVariableName "Flag1" boolScenarioDialogue).GraphNodes ∧
    GetGraphNodesForBoolVariableName "Flag1" boolScenarioDialogue =
      { GraphNodes := [scenarioNodeA], EdgeNodes := [] } :=
  ⟨((bool_search_exact "Flag1" boolScenarioDialogue).1 scenarioNodeA).mpr
      ⟨by decide, Or.inl ⟨⟨EDlgEventType.ModifyBool, "Flag1"⟩, by decide, rfl, rfl⟩⟩,
    by decide⟩

end DlgSystem
